import Mathlib

/-!
# Portfolio scene: interactive objects, section reveal, nebula, contact form

A shallow embedding of the stateful parts of `src/App.jsx`.

* JavaScript numbers are modelled as exact rationals (`ℚ`): the statements
  below are about the arithmetic the code writes down, not about rounding.
* A React state cell (`useState`) is a field of a record; a state setter
  called inside a handler or a frame callback is visible to the next
  handler or frame callback that runs.
* `props` never change during the life of a component instance.
-/

set_option autoImplicit false

namespace Portfolio

/-! ## InteractiveObject (App.jsx, lines 42-87) -/

/-- The part of the three.js object behind `ref.current` that the frame
callback touches: `position.y` and the uniform scale written by
`scale.setScalar`. -/
structure Object3D where
  positionY : ℚ
  scale : ℚ
  deriving DecidableEq, Repr

/-- The props an InteractiveObject reads: `props.position` (an `[x, y, z]`
triple) and the optional `props.size`. -/
structure Props where
  position : ℚ × ℚ × ℚ
  size : Option ℚ := none
  deriving DecidableEq, Repr

/-- The JavaScript expression `props.position[1]`. -/
def Props.position1 (props : Props) : ℚ := props.position.2.1

/-- State of one InteractiveObject instance: the three `useState` cells and
the `useRef` cell (`none` while nothing is attached to the ref). -/
structure InteractiveObject where
  hovered : Bool
  clicked : Bool
  showName : Bool
  ref : Option Object3D
  deriving DecidableEq, Repr

/-- The state right after mounting: all three flags are `false` and the
wrapped group is a fresh three.js group, whose position is `(0, 0, 0)` and
whose scale is `1`. -/
def InteractiveObject.mounted : InteractiveObject :=
  { hovered := false, clicked := false, showName := false,
    ref := some { positionY := 0, scale := 1 } }

/-- A state in which the wrapped group sits exactly at `props.position[1]`
and no jump is in progress. -/
def InteractiveObject.atRest (props : Props) (hovered showName : Bool) : InteractiveObject :=
  { hovered := hovered, clicked := false, showName := showName,
    ref := some { positionY := props.position1, scale := 1 } }

/-- The callback given to `useFrame` (lines 52-62), run once per frame with
the frame's `delta`. -/
def useFrame (props : Props) (s : InteractiveObject) (delta : ℚ) : InteractiveObject :=
  match s.ref with
  | none => s
  | some cur =>
    if s.clicked then
      let y := cur.positionY + delta * 4
      { s with
        clicked := if y > props.position1 + 1 then false else s.clicked
        ref := some { positionY := y, scale := if s.hovered then 115 / 100 else 1 } }
    else if cur.positionY > props.position1 then
      { s with
        ref := some { positionY := cur.positionY - delta * 3,
                      scale := if s.hovered then 115 / 100 else 1 } }
    else
      { s with
        ref := some { positionY := cur.positionY,
                      scale := if s.hovered then 115 / 100 else 1 } }

/-- The click handler (lines 64-68): `setClicked(true)` and
`setShowName(prev => !prev)`. -/
def handleClick (s : InteractiveObject) : InteractiveObject :=
  { s with clicked := true, showName := !s.showName }

/-- The handler of `onPointerOver` (line 74): `setHovered(true)`. -/
def onPointerOver (s : InteractiveObject) : InteractiveObject :=
  { s with hovered := true }

/-- The handler of `onPointerOut` (line 75): `setHovered(false)`. -/
def onPointerOut (s : InteractiveObject) : InteractiveObject :=
  { s with hovered := false }

/-- What can happen to an InteractiveObject between two renders. -/
inductive Event where
  | click
  | pointerOver
  | pointerOut
  | frame (delta : ℚ)
  deriving DecidableEq, Repr

/-- One event applied to the state. -/
def step (props : Props) (s : InteractiveObject) : Event → InteractiveObject
  | .click => handleClick s
  | .pointerOver => onPointerOver s
  | .pointerOut => onPointerOut s
  | .frame delta => useFrame props s delta

/-- A finite sequence of events applied in order. -/
def run (props : Props) (s : InteractiveObject) (evs : List Event) : InteractiveObject :=
  evs.foldl (step props) s

/-- The height of the wrapped group above `props.position[1]`; `0` while the
ref is empty. -/
def verticalOffset (props : Props) (s : InteractiveObject) : ℚ :=
  match s.ref with
  | none => 0
  | some cur => cur.positionY - props.position1

/-- The `position.y` of the wrapped group, if the ref is attached. -/
def positionY (s : InteractiveObject) : Option ℚ := s.ref.map (·.positionY)

/-- The uniform scale of the wrapped group, if the ref is attached. -/
def scaleOf (s : InteractiveObject) : Option ℚ := s.ref.map (·.scale)

/-- The state after a click followed by the first `n` frames of the delta
stream `δ`. -/
def afterClick (props : Props) (s : InteractiveObject) (δ : ℕ → ℚ) : ℕ → InteractiveObject
  | 0 => handleClick s
  | n + 1 => useFrame props (afterClick props s δ n) (δ n)

/-- Number of click events in a sequence. -/
def clicks : List Event → ℕ
  | [] => 0
  | .click :: evs => clicks evs + 1
  | _ :: evs => clicks evs

/-! ## AnimatedSection (App.jsx, lines 6-39) -/

/-- The fields of an `IntersectionObserverEntry` that matter here. -/
structure IntersectionObserverEntry where
  isIntersecting : Bool
  intersectionRatio : ℚ
  deriving DecidableEq, Repr

/-- State of one AnimatedSection: the `isVisible` cell and whether its
observer still observes the section element. -/
structure AnimatedSection where
  isVisible : Bool
  observing : Bool
  deriving DecidableEq, Repr

/-- The state after mounting with a non-null `ref.current`:
`useState(false)` and `observer.observe(currentRef)`. -/
def AnimatedSection.mounted : AnimatedSection :=
  { isVisible := false, observing := true }

/-- The observer callback (lines 12-17). It looks at the first entry of the
batch only. On an empty batch `entry` is `undefined`, reading
`entry.isIntersecting` throws before any state is written, and the state is
what it was. -/
def observerCallback (s : AnimatedSection) : List IntersectionObserverEntry → AnimatedSection
  | [] => s
  | entry :: _ =>
    if entry.isIntersecting then
      { isVisible := true, observing := false }
    else s

/-- A sequence of batches handed to the callback one after the other. -/
def deliver (s : AnimatedSection) (batches : List (List IntersectionObserverEntry)) :
    AnimatedSection :=
  batches.foldl observerCallback s

/-! ## Nebula (App.jsx, lines 195-220) -/

/-- One iteration of the loop body (lines 201-203). The state is the array
and the number of calls made to `Math.random` so far; `rnd k` is what the
`k`-th call returns. A write past the end of a typed array is dropped, as
`Array.setD` does. -/
def particlesBody (rnd : ℕ → ℚ) (st : Array ℚ × ℕ) (i : ℕ) : Array ℚ × ℕ :=
  let arr := st.1
  let k := st.2
  let arr := arr.setD (i * 3) ((rnd k - 1 / 2) * 250)
  let arr := arr.setD (i * 3 + 1) ((rnd (k + 1) - 1 / 2) * 250)
  let arr := arr.setD (i * 3 + 2) ((rnd (k + 2) - 1 / 2) * 250)
  (arr, k + 3)

/-- The generator inside `useMemo` (lines 198-206) for a given `count`:
`new Float32Array(count * 3)` is zero-filled, and the loop runs for
`i = 0, ..., count - 1`. -/
def particles (rnd : ℕ → ℚ) (count : ℕ) : Array ℚ :=
  ((List.range count).foldl (particlesBody rnd) (mkArray (count * 3) 0, 0)).1

/-! ## Contact form (App.jsx, lines 265-294) -/

/-- A value produced by `JSON.parse`. A number enters the handler only
through its truthiness and through the text `String(n)` gives for it, so a
number is carried as those two. The members of an object are in source
order. -/
inductive Json where
  | null
  | bool (b : Bool)
  | num (isZero : Bool) (text : String)
  | str (s : String)
  | arr (items : List Json)
  | obj (members : List (String × Json))
  deriving Repr

mutual
/-- JavaScript `String(v)` for a parsed value. -/
def Json.toJsString : Json → String
  | .null => "null"
  | .bool b => if b then "true" else "false"
  | .num _ text => text
  | .str s => s
  | .arr items => Json.joinItems items
  | .obj _ => "[object Object]"
/-- The text of `items.join(",")`, which is also `String(items)`. -/
def Json.joinItems : List Json → String
  | [] => ""
  | [x] => Json.itemText x
  | x :: y :: rest => Json.itemText x ++ "," ++ Json.joinItems (y :: rest)
/-- The text `Array.prototype.join` uses for one element: empty for
`null`, `String(v)` otherwise. -/
def Json.itemText : Json → String
  | .null => ""
  | .bool b => if b then "true" else "false"
  | .num _ text => text
  | .str s => s
  | .arr items => Json.joinItems items
  | .obj _ => "[object Object]"
end

/-- The value of `key` among the members of a parsed object; of two members
with the same key `JSON.parse` keeps the later one. -/
def lookupMember (key : String) : List (String × Json) → Option Json
  | [] => none
  | (k, v) :: rest =>
    match lookupMember key rest with
    | some w => some w
    | none => if k = key then some v else none

/-- The JavaScript value of `v[key]` for a parsed value `v` other than
`null`, with `none` for `undefined`. The handler reads the keys `errors` and
`message` only, which no array, string, number or boolean has. -/
def Json.prop (v : Json) (key : String) : Option Json :=
  match v with
  | .obj members => lookupMember key members
  | _ => none

/-- Reading `v[key]`: a `TypeError` when `v` is `null`. -/
def getProp (v : Json) (key : String) : Except String (Option Json) :=
  match v with
  | .null => .error "TypeError"
  | w => .ok (w.prop key)

/-- JavaScript truthiness of a parsed value or `undefined`. -/
def truthy : Option Json → Bool
  | none => false
  | some .null => false
  | some (.bool b) => b
  | some (.num isZero _) => !isZero
  | some (.str s) => s != ""
  | some (.arr _) => true
  | some (.obj _) => true

/-- The callback of line 286 over the elements of an array, in order:
`e => e.message`. -/
def messagesOf : List Json → Except String (List (Option Json))
  | [] => .ok []
  | e :: rest =>
    match getProp e "message" with
    | .error err => .error err
    | .ok m =>
      match messagesOf rest with
      | .error err => .error err
      | .ok ms => .ok (m :: ms)

/-- The call `errors.map(e => e.message)` of line 286 on a truthy `errors`:
only an array has a callable `map`; on every other parsed value the call
throws a `TypeError`. -/
def mapMessage : Option Json → Except String (List (Option Json))
  | some (.arr items) => messagesOf items
  | _ => .error "TypeError"

/-- The text `Array.prototype.join` uses for one element of the mapped
array: empty for `undefined` and `null`. -/
def joinText : Option Json → String
  | none => ""
  | some v => v.itemText

/-- What `await response.json()` does: it rejects (the body is not JSON), or
it gives the parsed body. -/
inductive JsonResult where
  | throws
  | parsed (data : Json)
  deriving Repr

/-- What `await fetch(...)` does: the promise rejects (network failure), or
it resolves to a response with its `ok` flag and its body. -/
inductive FetchResult where
  | rejected
  | response (ok : Bool) (json : JsonResult)
  deriving Repr

/-- What a submission leaves behind: the last value of `formStatus` and
whether `e.target.reset()` ran. -/
structure FormOutcome where
  formStatus : String
  formReset : Bool
  deriving DecidableEq, Repr

def sendingStatus : String := "Sending..."

def successStatus : String := "✅ Thank you! Your message has been sent."

def networkErrorStatus : String := "❌ Network error. Please check your connection."

def problemStatus : String := "❌ Oops! There was a problem submitting your form."

/-- The body of the `try` block (lines 274-290): the outcome it reaches, or
the exception that leaves it. -/
def tryBlock : FetchResult → Except String FormOutcome
  | .rejected => .error "fetch rejected"
  | .response true _ => .ok { formStatus := successStatus, formReset := true }
  | .response false .throws => .error "SyntaxError"
  | .response false (.parsed data) =>
    match getProp data "errors" with
    | .error err => .error err
    | .ok errors =>
      if truthy errors then
        match mapMessage errors with
        | .error err => .error err
        | .ok msgs =>
          .ok { formStatus := "❌ " ++ ", ".intercalate (msgs.map joinText),
                formReset := false }
      else .ok { formStatus := problemStatus, formReset := false }

/-- The submit handler (lines 268-294) run against a given result of the
request: `formStatus` is first `sendingStatus`; an exception that leaves the
`try` block is caught on line 291. -/
def handleFormSubmit (r : FetchResult) : FormOutcome :=
  let s : FormOutcome := { formStatus := sendingStatus, formReset := false }
  match tryBlock r with
  | .ok out => out
  | .error _ => { s with formStatus := networkErrorStatus }

/-- The messages of an array of `{message}` objects with string messages,
if that is what the list is. -/
def messageStrings : List Json → Option (List String)
  | [] => some []
  | e :: rest =>
    match e.prop "message", messageStrings rest with
    | some (.str m), some ms => some (m :: ms)
    | _, _ => none

/-- The structured error list of a response body, as the specification
describes it: an `errors` array of `{message}` objects. -/
def errorList (data : Json) : Option (List String) :=
  match data.prop "errors" with
  | some (.arr items) => messageStrings items
  | _ => none

/-- The three outcomes as the specification words them, as a relation
between the result of the request and what the submission leaves behind. A
non-success response without a structured error list has no outcome among
the three. -/
def ThreeOutcomes (r : FetchResult) (out : FormOutcome) : Prop :=
  match r with
  | .rejected => out = { formStatus := networkErrorStatus, formReset := false }
  | .response true _ => out = { formStatus := successStatus, formReset := true }
  | .response false .throws => False
  | .response false (.parsed data) =>
    match errorList data with
    | some msgs => out = { formStatus := "❌ " ++ ", ".intercalate msgs, formReset := false }
    | none => False

instance (r : FetchResult) (out : FormOutcome) : Decidable (ThreeOutcomes r out) := by
  unfold ThreeOutcomes
  split
  · infer_instance
  · infer_instance
  · infer_instance
  · split <;> infer_instance

/-! ## Basic facts about the handlers and the frame callback -/

theorem run_nil (props : Props) (s : InteractiveObject) : run props s [] = s := rfl

theorem run_cons (props : Props) (s : InteractiveObject) (e : Event) (evs : List Event) :
    run props s (e :: evs) = run props (step props s e) evs := rfl

theorem run_append (props : Props) (s : InteractiveObject) (xs ys : List Event) :
    run props s (xs ++ ys) = run props (run props s xs) ys := by
  simp [run, List.foldl_append]

/-- The frame callback while rising: the group moves up by `delta * 4`, and
`clicked` is cleared exactly when the new height is above
`props.position[1] + 1`. -/
theorem useFrame_rising (props : Props) (hov sn : Bool) (cur : Object3D) (delta : ℚ) :
    useFrame props ⟨hov, true, sn, some cur⟩ delta =
      ⟨hov, !decide (cur.positionY + delta * 4 > props.position1 + 1), sn,
        some ⟨cur.positionY + delta * 4, if hov then 115 / 100 else 1⟩⟩ := by
  by_cases h : cur.positionY + delta * 4 > props.position1 + 1 <;> simp [useFrame, h]

/-- The frame callback while not rising. -/
theorem useFrame_idle (props : Props) (hov sn : Bool) (cur : Object3D) (delta : ℚ) :
    useFrame props ⟨hov, false, sn, some cur⟩ delta =
      ⟨hov, false, sn,
        some ⟨if cur.positionY > props.position1 then cur.positionY - delta * 3
                else cur.positionY,
              if hov then 115 / 100 else 1⟩⟩ := by
  by_cases h : cur.positionY > props.position1 <;> simp [useFrame, h]

/-- One event never lowers the offset below `-(3 * D)` when the frame deltas
are in `[0, D]`. -/
theorem step_offset_bound (props : Props) (D : ℚ) (s : InteractiveObject) (e : Event)
    (he : ∀ d, e = Event.frame d → 0 ≤ d ∧ d ≤ D)
    (hs : -(3 * D) ≤ verticalOffset props s) :
    -(3 * D) ≤ verticalOffset props (step props s e) := by
  cases e with
  | click => simpa [step, handleClick, verticalOffset] using hs
  | pointerOver => simpa [step, onPointerOver, verticalOffset] using hs
  | pointerOut => simpa [step, onPointerOut, verticalOffset] using hs
  | frame d =>
    obtain ⟨hd0, hdD⟩ := he d rfl
    obtain ⟨hov, cl, sn, r⟩ := s
    cases r with
    | none => simpa [step, useFrame, verticalOffset] using hs
    | some cur =>
      cases cl with
      | true =>
        simp only [step, useFrame_rising, verticalOffset] at hs ⊢
        linarith
      | false =>
        simp only [step, useFrame_idle, verticalOffset] at hs ⊢
        split_ifs with h
        · linarith
        · exact hs

theorem run_offset_bound (props : Props) (D : ℚ) (evs : List Event) :
    ∀ s : InteractiveObject, (∀ d, Event.frame d ∈ evs → 0 ≤ d ∧ d ≤ D) →
      -(3 * D) ≤ verticalOffset props s →
      -(3 * D) ≤ verticalOffset props (run props s evs) := by
  induction evs with
  | nil => intro s _ hs; simpa [run] using hs
  | cons e evs ih =>
    intro s h hs
    rw [run_cons]
    apply ih
    · intro d hd; exact h d (List.mem_cons_of_mem _ hd)
    · apply step_offset_bound props D s e _ hs
      intro d hd; exact h d (by simp [hd])

/-! ## C1: the offset can go below zero -/

/-- C1, as stated, fails: from rest at height `0`, a click, a frame of delta
`3/10` (the offset becomes `12/10`, above `1`, so `clicked` is cleared) and a
frame of delta `1` leave the offset at `-18/10`: the fall step is not
clamped. -/
theorem C1_offset_negative :
    verticalOffset { position := (0, 0, 0) }
      (run { position := (0, 0, 0) } (InteractiveObject.atRest { position := (0, 0, 0) } false false)
        [Event.click, Event.frame (3 / 10), Event.frame 1]) = -(18 / 10) ∧
    verticalOffset { position := (0, 0, 0) }
      (run { position := (0, 0, 0) } (InteractiveObject.atRest { position := (0, 0, 0) } false false)
        [Event.click, Event.frame (3 / 10), Event.frame 1]) < 0 := by
  constructor <;>
    norm_num [run, step, handleClick, InteractiveObject.atRest, useFrame, verticalOffset,
      Props.position1]

/-- C1, amended: starting from rest, for every finite sequence of click,
hover and frame events whose frame deltas all lie in `[0, D]`, the vertical
offset is at least `-(3 * D)` after the sequence (hence after every frame
update of it): a fall step overshoots zero by less than one step. -/
theorem C1_offset_lower_bound (props : Props) (hovered showName : Bool) (D : ℚ)
    (evs : List Event) (hD : 0 ≤ D)
    (h : ∀ d, Event.frame d ∈ evs → 0 ≤ d ∧ d ≤ D) :
    -(3 * D) ≤
      verticalOffset props (run props (InteractiveObject.atRest props hovered showName) evs) := by
  apply run_offset_bound props D evs _ h
  simp [InteractiveObject.atRest, verticalOffset]
  linarith

theorem C1_offset_lower_bound_witness :
    -(3 * (1 : ℚ)) ≤
      verticalOffset { position := (0, 0, 0) }
        (run { position := (0, 0, 0) }
          (InteractiveObject.atRest { position := (0, 0, 0) } false false)
          [Event.click, Event.frame (3 / 10), Event.frame 1]) :=
  C1_offset_lower_bound { position := (0, 0, 0) } false false 1
    [Event.click, Event.frame (3 / 10), Event.frame 1] (by norm_num)
    (by
      intro d hd
      simp at hd
      rcases hd with rfl | rfl <;> norm_num)

/-! ## C2: a click at rest starts a rise that ends in a fall -/

/-- While the offset has not exceeded `1`, the object is still rising and
its ref is attached. -/
theorem afterClick_rising (props : Props) (hovered showName : Bool) (δ : ℕ → ℚ) (n : ℕ)
    (hn : ∀ j ≤ n, verticalOffset props
      (afterClick props (InteractiveObject.atRest props hovered showName) δ j) ≤ 1) :
    ∃ sn cur, afterClick props (InteractiveObject.atRest props hovered showName) δ n =
      ⟨hovered, true, sn, some cur⟩ := by
  induction n with
  | zero => exact ⟨_, _, rfl⟩
  | succ n ih =>
    obtain ⟨sn, cur, hs⟩ := ih (fun j hj => hn j (Nat.le_succ_of_le hj))
    have h1 := hn (n + 1) le_rfl
    simp only [afterClick, hs, useFrame_rising, verticalOffset] at h1 ⊢
    have h2 : ¬ (cur.positionY + δ n * 4 > props.position1 + 1) := by
      intro h; linarith
    exact ⟨sn, ⟨cur.positionY + δ n * 4, if hovered then 115 / 100 else 1⟩, by simp [h2]⟩

/-- C2: after a click at rest, with strictly positive frame deltas, every
frame up to and including the first one that takes the offset above `1`
raises the offset by `4 * delta`; on that first frame `clicked` becomes
false, and the frame after it lowers the offset by `3 * delta`. Here
`afterClick ... j` is the state after the click and `j` frames, and
`hn` says that the offset has not exceeded `1` after frames `0 .. n`. -/
theorem C2_rise_then_fall (props : Props) (hovered showName : Bool) (δ : ℕ → ℚ)
    (hδ : ∀ n, 0 < δ n) (n : ℕ)
    (hn : ∀ j ≤ n, verticalOffset props
      (afterClick props (InteractiveObject.atRest props hovered showName) δ j) ≤ 1) :
    (afterClick props (InteractiveObject.atRest props hovered showName) δ n).clicked = true ∧
    verticalOffset props
        (afterClick props (InteractiveObject.atRest props hovered showName) δ (n + 1)) =
      verticalOffset props
        (afterClick props (InteractiveObject.atRest props hovered showName) δ n) + 4 * δ n ∧
    verticalOffset props
        (afterClick props (InteractiveObject.atRest props hovered showName) δ n) <
      verticalOffset props
        (afterClick props (InteractiveObject.atRest props hovered showName) δ (n + 1)) ∧
    (1 < verticalOffset props
        (afterClick props (InteractiveObject.atRest props hovered showName) δ (n + 1)) →
      (afterClick props (InteractiveObject.atRest props hovered showName) δ (n + 1)).clicked
          = false ∧
      verticalOffset props
          (afterClick props (InteractiveObject.atRest props hovered showName) δ (n + 2)) =
        verticalOffset props
          (afterClick props (InteractiveObject.atRest props hovered showName) δ (n + 1))
          - 3 * δ (n + 1) ∧
      verticalOffset props
          (afterClick props (InteractiveObject.atRest props hovered showName) δ (n + 2)) <
        verticalOffset props
          (afterClick props (InteractiveObject.atRest props hovered showName) δ (n + 1))) := by
  obtain ⟨sn, cur, hs⟩ := afterClick_rising props hovered showName δ n hn
  have hpos := hδ n
  have hpos1 := hδ (n + 1)
  have hs1 : afterClick props (InteractiveObject.atRest props hovered showName) δ (n + 1) =
      ⟨hovered, !decide (cur.positionY + δ n * 4 > props.position1 + 1), sn,
        some ⟨cur.positionY + δ n * 4, if hovered then 115 / 100 else 1⟩⟩ := by
    simp only [afterClick, hs, useFrame_rising]
  refine ⟨by rw [hs], ?_, ?_, ?_⟩
  · rw [hs1, hs]; simp only [verticalOffset]; ring
  · rw [hs1, hs]; simp only [verticalOffset]; linarith
  · intro hgt
    rw [hs1] at hgt
    simp only [verticalOffset] at hgt
    have h2 : cur.positionY + δ n * 4 > props.position1 + 1 := by linarith
    have hs1b : afterClick props (InteractiveObject.atRest props hovered showName) δ (n + 1) =
        ⟨hovered, false, sn,
          some ⟨cur.positionY + δ n * 4, if hovered then 115 / 100 else 1⟩⟩ := by
      rw [hs1]; simp [h2]
    have h3 : cur.positionY + δ n * 4 > props.position1 := by linarith
    have hs2 : afterClick props (InteractiveObject.atRest props hovered showName) δ (n + 2) =
        ⟨hovered, false, sn,
          some ⟨cur.positionY + δ n * 4 - δ (n + 1) * 3,
            if hovered then 115 / 100 else 1⟩⟩ := by
      show useFrame props (afterClick props _ δ (n + 1)) (δ (n + 1)) = _
      rw [hs1b, useFrame_idle]
      simp [h3]
    refine ⟨by rw [hs1b], ?_, ?_⟩
    · rw [hs2, hs1b]; simp only [verticalOffset]; ring
    · rw [hs2, hs1b]; simp only [verticalOffset]; linarith

theorem C2_rise_then_fall_witness :
    (afterClick { position := (0, 0, 0) }
      (InteractiveObject.atRest { position := (0, 0, 0) } false false)
      (fun _ => 1 / 10) 2).clicked = true ∧
    verticalOffset { position := (0, 0, 0) }
        (afterClick { position := (0, 0, 0) }
          (InteractiveObject.atRest { position := (0, 0, 0) } false false)
          (fun _ => 1 / 10) 3) = 12 / 10 ∧
    (afterClick { position := (0, 0, 0) }
      (InteractiveObject.atRest { position := (0, 0, 0) } false false)
      (fun _ => 1 / 10) 3).clicked = false ∧
    verticalOffset { position := (0, 0, 0) }
        (afterClick { position := (0, 0, 0) }
          (InteractiveObject.atRest { position := (0, 0, 0) } false false)
          (fun _ => 1 / 10) 4) <
      verticalOffset { position := (0, 0, 0) }
        (afterClick { position := (0, 0, 0) }
          (InteractiveObject.atRest { position := (0, 0, 0) } false false)
          (fun _ => 1 / 10) 3) := by
  have hn : ∀ j ≤ 2, verticalOffset { position := (0, 0, 0) }
      (afterClick { position := (0, 0, 0) }
        (InteractiveObject.atRest { position := (0, 0, 0) } false false)
        (fun _ => 1 / 10) j) ≤ 1 := by
    intro j hj
    interval_cases j <;>
      norm_num [afterClick, handleClick, InteractiveObject.atRest, useFrame, verticalOffset,
        Props.position1]
  have h := C2_rise_then_fall { position := (0, 0, 0) } false false (fun _ => 1 / 10)
    (by intro n; norm_num) 2 hn
  have h3 : verticalOffset { position := (0, 0, 0) }
        (afterClick { position := (0, 0, 0) }
          (InteractiveObject.atRest { position := (0, 0, 0) } false false)
          (fun _ => 1 / 10) 3) = 12 / 10 := by
    norm_num [afterClick, handleClick, InteractiveObject.atRest, useFrame, verticalOffset,
      Props.position1]
  have h4 := h.2.2.2 (by rw [h3]; norm_num)
  exact ⟨h.1, h3, h4.1, h4.2.2⟩

/-! ## C3: the jump with frames of one tenth -/

/-- An object that is not rising and sits at `props.position[1]` stays
there, whatever the frame deltas. -/
theorem run_frames_at_base (props : Props) (d : ℚ) (n : ℕ) :
    ∀ hov sn sc, ∃ sc1,
      run props ⟨hov, false, sn, some ⟨props.position1, sc⟩⟩ (List.replicate n (Event.frame d))
        = ⟨hov, false, sn, some ⟨props.position1, sc1⟩⟩ := by
  induction n with
  | zero => intro hov sn sc; exact ⟨sc, rfl⟩
  | succ n ih =>
    intro hov sn sc
    obtain ⟨sc1, h⟩ := ih hov sn (if hov then 115 / 100 else 1)
    refine ⟨sc1, ?_⟩
    rw [List.replicate_succ, run_cons]
    simp only [step, useFrame_idle, gt_iff_lt, lt_self_iff_false, if_false]
    exact h

theorem run_click_frames_succ (props : Props) (s : InteractiveObject) (d : ℚ) (n : ℕ) :
    run props s (Event.click :: List.replicate (n + 1) (Event.frame d)) =
      useFrame props (run props s (Event.click :: List.replicate n (Event.frame d))) d := by
  rw [List.replicate_succ', ← List.cons_append, run_append]
  rfl

/-- A rising frame that stays at or below the apex threshold. -/
theorem useFrame_rising_below (props : Props) (hov sn : Bool) (y sc delta y1 : ℚ)
    (hy : y + delta * 4 = y1) (h : y1 ≤ props.position1 + 1) :
    useFrame props ⟨hov, true, sn, some ⟨y, sc⟩⟩ delta =
      ⟨hov, true, sn, some ⟨y1, if hov then 115 / 100 else 1⟩⟩ := by
  subst hy
  rw [useFrame_rising]
  simp [not_lt.mpr h]

/-- A rising frame that passes the apex threshold. -/
theorem useFrame_rising_above (props : Props) (hov sn : Bool) (y sc delta y1 : ℚ)
    (hy : y + delta * 4 = y1) (h : props.position1 + 1 < y1) :
    useFrame props ⟨hov, true, sn, some ⟨y, sc⟩⟩ delta =
      ⟨hov, false, sn, some ⟨y1, if hov then 115 / 100 else 1⟩⟩ := by
  subst hy
  rw [useFrame_rising]
  simp [h]

/-- A falling frame. -/
theorem useFrame_falling (props : Props) (hov sn : Bool) (y sc delta y1 : ℚ)
    (hy : y - delta * 3 = y1) (h : props.position1 < y) :
    useFrame props ⟨hov, false, sn, some ⟨y, sc⟩⟩ delta =
      ⟨hov, false, sn, some ⟨y1, if hov then 115 / 100 else 1⟩⟩ := by
  subst hy
  rw [useFrame_idle]
  simp [h]

/-- C3: from rest, in exact arithmetic, with frames of delta `1/10`: the
offset is `0` right after the click; `4/10`, `8/10`, `12/10` after one, two
and three frames, with `clicked` false after the third; `9/10`, `6/10`,
`3/10`, `0` after frames four to seven; and `0` after every later frame. -/
theorem C3_jump_trace (props : Props) (hovered showName : Bool) :
    verticalOffset props (run props (InteractiveObject.atRest props hovered showName)
      [Event.click]) = 0 ∧
    verticalOffset props (run props (InteractiveObject.atRest props hovered showName)
      (Event.click :: List.replicate 1 (Event.frame (1 / 10)))) = 4 / 10 ∧
    verticalOffset props (run props (InteractiveObject.atRest props hovered showName)
      (Event.click :: List.replicate 2 (Event.frame (1 / 10)))) = 8 / 10 ∧
    verticalOffset props (run props (InteractiveObject.atRest props hovered showName)
      (Event.click :: List.replicate 3 (Event.frame (1 / 10)))) = 12 / 10 ∧
    (run props (InteractiveObject.atRest props hovered showName)
      (Event.click :: List.replicate 2 (Event.frame (1 / 10)))).clicked = true ∧
    (run props (InteractiveObject.atRest props hovered showName)
      (Event.click :: List.replicate 3 (Event.frame (1 / 10)))).clicked = false ∧
    verticalOffset props (run props (InteractiveObject.atRest props hovered showName)
      (Event.click :: List.replicate 4 (Event.frame (1 / 10)))) = 9 / 10 ∧
    verticalOffset props (run props (InteractiveObject.atRest props hovered showName)
      (Event.click :: List.replicate 5 (Event.frame (1 / 10)))) = 6 / 10 ∧
    verticalOffset props (run props (InteractiveObject.atRest props hovered showName)
      (Event.click :: List.replicate 6 (Event.frame (1 / 10)))) = 3 / 10 ∧
    verticalOffset props (run props (InteractiveObject.atRest props hovered showName)
      (Event.click :: List.replicate 7 (Event.frame (1 / 10)))) = 0 ∧
    ∀ n, verticalOffset props (run props (InteractiveObject.atRest props hovered showName)
      (Event.click :: List.replicate (7 + n) (Event.frame (1 / 10)))) = 0 := by
  have h0 : run props (InteractiveObject.atRest props hovered showName)
      (Event.click :: List.replicate 0 (Event.frame (1 / 10))) =
      ⟨hovered, true, !showName, some ⟨props.position1, 1⟩⟩ := rfl
  have h1 : run props (InteractiveObject.atRest props hovered showName)
      (Event.click :: List.replicate 1 (Event.frame (1 / 10))) =
      ⟨hovered, true, !showName,
        some ⟨props.position1 + 4 / 10, if hovered then 115 / 100 else 1⟩⟩ := by
    rw [run_click_frames_succ, h0]
    exact useFrame_rising_below props _ _ _ _ _ _ (by ring) (by linarith)
  have h2 : run props (InteractiveObject.atRest props hovered showName)
      (Event.click :: List.replicate 2 (Event.frame (1 / 10))) =
      ⟨hovered, true, !showName,
        some ⟨props.position1 + 8 / 10, if hovered then 115 / 100 else 1⟩⟩ := by
    rw [run_click_frames_succ, h1]
    exact useFrame_rising_below props _ _ _ _ _ _ (by ring) (by linarith)
  have h3 : run props (InteractiveObject.atRest props hovered showName)
      (Event.click :: List.replicate 3 (Event.frame (1 / 10))) =
      ⟨hovered, false, !showName,
        some ⟨props.position1 + 12 / 10, if hovered then 115 / 100 else 1⟩⟩ := by
    rw [run_click_frames_succ, h2]
    exact useFrame_rising_above props _ _ _ _ _ _ (by ring) (by linarith)
  have h4 : run props (InteractiveObject.atRest props hovered showName)
      (Event.click :: List.replicate 4 (Event.frame (1 / 10))) =
      ⟨hovered, false, !showName,
        some ⟨props.position1 + 9 / 10, if hovered then 115 / 100 else 1⟩⟩ := by
    rw [run_click_frames_succ, h3]
    exact useFrame_falling props _ _ _ _ _ _ (by ring) (by linarith)
  have h5 : run props (InteractiveObject.atRest props hovered showName)
      (Event.click :: List.replicate 5 (Event.frame (1 / 10))) =
      ⟨hovered, false, !showName,
        some ⟨props.position1 + 6 / 10, if hovered then 115 / 100 else 1⟩⟩ := by
    rw [run_click_frames_succ, h4]
    exact useFrame_falling props _ _ _ _ _ _ (by ring) (by linarith)
  have h6 : run props (InteractiveObject.atRest props hovered showName)
      (Event.click :: List.replicate 6 (Event.frame (1 / 10))) =
      ⟨hovered, false, !showName,
        some ⟨props.position1 + 3 / 10, if hovered then 115 / 100 else 1⟩⟩ := by
    rw [run_click_frames_succ, h5]
    exact useFrame_falling props _ _ _ _ _ _ (by ring) (by linarith)
  have h7 : run props (InteractiveObject.atRest props hovered showName)
      (Event.click :: List.replicate 7 (Event.frame (1 / 10))) =
      ⟨hovered, false, !showName,
        some ⟨props.position1, if hovered then 115 / 100 else 1⟩⟩ := by
    rw [run_click_frames_succ, h6]
    exact useFrame_falling props _ _ _ _ _ _ (by ring) (by linarith)
  refine ⟨?_, ?_, ?_, ?_, ?_, ?_, ?_, ?_, ?_, ?_, ?_⟩
  · simp [run, step, handleClick, InteractiveObject.atRest, verticalOffset]
  · rw [h1]; simp [verticalOffset]
  · rw [h2]; simp [verticalOffset]
  · rw [h3]; simp [verticalOffset]
  · rw [h2]
  · rw [h3]
  · rw [h4]; simp [verticalOffset]
  · rw [h5]; simp [verticalOffset]
  · rw [h6]; simp [verticalOffset]
  · rw [h7]; simp [verticalOffset]
  · intro n
    have hsplit : Event.click :: List.replicate (7 + n) (Event.frame (1 / 10)) =
        (Event.click :: List.replicate 7 (Event.frame (1 / 10))) ++
          List.replicate n (Event.frame (1 / 10)) := by
      rw [List.replicate_add]; rfl
    rw [hsplit, run_append, h7]
    obtain ⟨sc1, h⟩ := run_frames_at_base props (1 / 10) n hovered (!showName)
      (if hovered then 115 / 100 else 1)
    rw [h]
    simp [verticalOffset]

/-! ## C4: a click never moves the object -/

/-- C4: in every state the click handler leaves the ref (hence the height
and the offset) as it was and leaves `clicked = true`; and with the ref
attached, the frame after a click moves the group up by `delta * 4` from the
height it had, whether it was rising, falling or at rest. -/
theorem C4_click_keeps_offset (props : Props) (s : InteractiveObject)
    (hov cl sn : Bool) (cur : Object3D) (delta : ℚ) :
    (handleClick s).ref = s.ref ∧
    verticalOffset props (handleClick s) = verticalOffset props s ∧
    (handleClick s).clicked = true ∧
    positionY (useFrame props (handleClick ⟨hov, cl, sn, some cur⟩) delta) =
      some (cur.positionY + delta * 4) ∧
    verticalOffset props (useFrame props (handleClick ⟨hov, cl, sn, some cur⟩) delta) =
      verticalOffset props ⟨hov, cl, sn, some cur⟩ + delta * 4 := by
  refine ⟨rfl, rfl, rfl, ?_, ?_⟩
  · simp [handleClick, useFrame_rising, positionY]
  · simp only [handleClick, useFrame_rising, verticalOffset]; ring

/-! ## C5: the label follows the parity of the clicks -/

theorem step_showName (props : Props) (s : InteractiveObject) (e : Event) :
    (step props s e).showName = if e = Event.click then !s.showName else s.showName := by
  cases e with
  | click => simp [step, handleClick]
  | pointerOver => simp [step, onPointerOver]
  | pointerOut => simp [step, onPointerOut]
  | frame d =>
    simp only [step, useFrame, reduceCtorEq, if_false]
    split
    · rfl
    · split_ifs <;> rfl

theorem run_showName (props : Props) (evs : List Event) :
    ∀ s : InteractiveObject,
      (run props s evs).showName = if clicks evs % 2 = 1 then !s.showName else s.showName := by
  induction evs with
  | nil => intro s; simp [run, clicks]
  | cons e evs ih =>
    intro s
    rw [run_cons, ih, step_showName]
    cases e with
    | click =>
      simp only [clicks, if_true]
      rcases Nat.mod_two_eq_zero_or_one (clicks evs) with h | h
      · have h2 : (clicks evs + 1) % 2 = 1 := by omega
        simp [h, h2]
      · have h2 : ¬ (clicks evs + 1) % 2 = 1 := by omega
        simp [h, h2]
    | pointerOver => simp [clicks]
    | pointerOut => simp [clicks]
    | frame d => simp [clicks]

/-- C5: from a state with `showName = false` (whatever `hovered`, `clicked`
and the ref are), after every sequence of click, hover-enter, hover-exit and
frame events, `showName` is true exactly when the sequence has an odd number
of clicks. -/
theorem C5_showName_parity (props : Props) (hov cl : Bool) (r : Option Object3D)
    (evs : List Event) :
    (run props ⟨hov, cl, false, r⟩ evs).showName = true ↔ clicks evs % 2 = 1 := by
  rw [run_showName]
  by_cases h : clicks evs % 2 = 1 <;> simp [h]

/-! ## C6: an object placed below zero sinks without a click -/

/-- C6 at the placement of the first astronaut of the scene,
`position = [-8, -2, -10]`: the wrapped group is mounted at `position.y = 0`,
which is above `props.position[1] = -2`, so the first frame of delta `1/10`
takes the fall branch and moves the group to `-3/10` with no click at all;
seven such frames take it to `-21/10`, where it stays. -/
theorem C6_sinks_without_click :
    positionY InteractiveObject.mounted = some 0 ∧
    positionY (run { position := (-8, -2, -10) } InteractiveObject.mounted
      [Event.frame (1 / 10)]) = some (-(3 / 10)) ∧
    positionY (run { position := (-8, -2, -10) } InteractiveObject.mounted
      [Event.pointerOver, Event.frame (1 / 10), Event.pointerOut, Event.frame (1 / 10)])
        = some (-(6 / 10)) := by
  refine ⟨rfl, ?_, ?_⟩ <;>
    norm_num [run, step, onPointerOver, onPointerOut, InteractiveObject.mounted, useFrame,
      positionY, Props.position1]

/-- Where the placement is at or above zero the mounted object does stay
put without a click: the fall branch is never taken. -/
theorem mounted_still_of_nonneg (props : Props) (hp : 0 ≤ props.position1)
    (evs : List Event) (hc : Event.click ∉ evs) :
    positionY (run props InteractiveObject.mounted evs) = some 0 := by
  have key : ∀ (evs : List Event), Event.click ∉ evs → ∀ hov sn sc, ∃ hov1 sc1,
      run props ⟨hov, false, sn, some ⟨0, sc⟩⟩ evs = ⟨hov1, false, sn, some ⟨0, sc1⟩⟩ := by
    intro evs
    induction evs with
    | nil => intro _ hov sn sc; exact ⟨hov, sc, rfl⟩
    | cons e evs ih =>
      intro hc hov sn sc
      have hc1 : Event.click ∉ evs := fun h => hc (List.mem_cons_of_mem _ h)
      rw [run_cons]
      cases e with
      | click => exact absurd (List.mem_cons_self _ _) hc
      | pointerOver => exact ih hc1 true sn sc
      | pointerOut => exact ih hc1 false sn sc
      | frame d =>
        simp only [step, useFrame_idle]
        have hn : ¬ ((0 : ℚ) > props.position1) := not_lt.mpr hp
        simp only [hn, if_false]
        exact ih hc1 hov sn _
  obtain ⟨hov1, sc1, h⟩ := key evs hc false false 1
  show positionY (run props ⟨false, false, false, some ⟨0, 1⟩⟩ evs) = some 0
  rw [h]
  rfl

/-! ## C7: the scale follows `hovered` only -/

/-- C7: with the ref attached, the frame callback sets the scale to `115/100`
when `hovered` is true and to `1` otherwise, whatever `clicked`, `showName`,
the height and the delta are; so from the mounted state the scale after a
frame, a hover-enter and a frame, a hover-exit and a frame is
`1`, `115/100`, `1`. -/
theorem C7_scale_follows_hover (props : Props) (hov cl sn : Bool) (cur : Object3D)
    (delta d0 d1 d2 : ℚ) :
    scaleOf (useFrame props ⟨hov, cl, sn, some cur⟩ delta) =
      some (if hov then 115 / 100 else 1) ∧
    scaleOf (run props InteractiveObject.mounted [Event.frame d0]) = some 1 ∧
    scaleOf (run props InteractiveObject.mounted
      [Event.frame d0, Event.pointerOver, Event.frame d1]) = some (115 / 100) ∧
    scaleOf (run props InteractiveObject.mounted
      [Event.frame d0, Event.pointerOver, Event.frame d1, Event.pointerOut, Event.frame d2])
        = some 1 := by
  have hscale : ∀ (hov cl sn : Bool) (cur : Object3D) (delta : ℚ),
      ∃ cl1 y1, useFrame props ⟨hov, cl, sn, some cur⟩ delta =
        ⟨hov, cl1, sn, some ⟨y1, if hov then 115 / 100 else 1⟩⟩ := by
    intro hov cl sn cur delta
    cases cl with
    | true => exact ⟨_, _, useFrame_rising props hov sn cur delta⟩
    | false => exact ⟨_, _, useFrame_idle props hov sn cur delta⟩
  refine ⟨?_, ?_, ?_, ?_⟩
  · obtain ⟨cl1, y1, h⟩ := hscale hov cl sn cur delta
    rw [h]; rfl
  · obtain ⟨cl1, y1, h⟩ := hscale false false false ⟨0, 1⟩ d0
    simp only [run, List.foldl, step, InteractiveObject.mounted, h]
    simp [scaleOf]
  · obtain ⟨cl1, y1, h⟩ := hscale false false false ⟨0, 1⟩ d0
    obtain ⟨cl2, y2, h2⟩ := hscale true cl1 false ⟨y1, 1⟩ d1
    simp only [run, List.foldl, step, InteractiveObject.mounted, h, onPointerOver]
    simp only [Bool.false_eq_true, if_false, h2]
    simp [scaleOf]
  · obtain ⟨cl1, y1, h⟩ := hscale false false false ⟨0, 1⟩ d0
    obtain ⟨cl2, y2, h2⟩ := hscale true cl1 false ⟨y1, 1⟩ d1
    obtain ⟨cl3, y3, h3⟩ := hscale false cl2 false ⟨y2, 115 / 100⟩ d2
    simp only [run, List.foldl, step, InteractiveObject.mounted, h, onPointerOver,
      onPointerOut]
    simp only [Bool.false_eq_true, if_false, h2, if_true, h3]
    simp [scaleOf]

/-! ## C8: the reveal flag is one-way -/

theorem observerCallback_isVisible (s : AnimatedSection)
    (batch : List IntersectionObserverEntry) (h : s.isVisible = true) :
    (observerCallback s batch).isVisible = true := by
  cases batch with
  | nil => exact h
  | cons entry rest =>
    simp only [observerCallback]
    split_ifs
    · rfl
    · exact h

theorem deliver_isVisible (batches : List (List IntersectionObserverEntry)) :
    ∀ s : AnimatedSection, s.isVisible = true → (deliver s batches).isVisible = true := by
  induction batches with
  | nil => intro s h; exact h
  | cons b bs ih =>
    intro s h
    exact ih _ (observerCallback_isVisible s b h)

/-- C8: if `isVisible` is true after some sequence of batches given to the
observer callback, it is true after every longer sequence, whatever the
later batches report (no intersection and ratio `0` included); and from the
mounted state, batches with ratio `0`, then `1/4` (intersecting), then `0`
give `isVisible` false, true, true. -/
theorem C8_reveal_one_way (s : AnimatedSection)
    (earlier later : List (List IntersectionObserverEntry))
    (h : (deliver s earlier).isVisible = true) :
    (deliver s (earlier ++ later)).isVisible = true ∧
    (deliver AnimatedSection.mounted [[⟨false, 0⟩]]).isVisible = false ∧
    (deliver AnimatedSection.mounted [[⟨false, 0⟩], [⟨true, 1 / 4⟩]]).isVisible = true ∧
    (deliver AnimatedSection.mounted
      [[⟨false, 0⟩], [⟨true, 1 / 4⟩], [⟨false, 0⟩]]).isVisible = true := by
  have happ : deliver s (earlier ++ later) = deliver (deliver s earlier) later := by
    simp [deliver, List.foldl_append]
  rw [happ]
  exact ⟨deliver_isVisible later _ h, by decide, by decide, by decide⟩

theorem C8_reveal_one_way_witness :
    (deliver AnimatedSection.mounted [[⟨false, 0⟩], [⟨true, 1 / 4⟩]]).isVisible = true ∧
    (deliver AnimatedSection.mounted
      ([[⟨false, 0⟩], [⟨true, 1 / 4⟩]] ++ [[⟨false, 0⟩], [⟨false, 0⟩]])).isVisible = true :=
  ⟨by decide,
    (C8_reveal_one_way AnimatedSection.mounted [[⟨false, 0⟩], [⟨true, 1 / 4⟩]]
      [[⟨false, 0⟩], [⟨false, 0⟩]] (by decide)).1⟩

/-! ## C9: size and range of the particle array -/

theorem mem_setD (a : Array ℚ) (i : ℕ) (v x : ℚ) (hx : x ∈ (a.setD i v).toList) :
    x ∈ a.toList ∨ x = v := by
  obtain ⟨l⟩ := a
  rw [List.setD_toArray] at hx
  exact List.mem_or_eq_of_mem_set hx

/-- One pass through the loop body keeps the size of the array and keeps
every entry in `[-125, 125]`. -/
theorem particlesBody_inv (rnd : ℕ → ℚ) (h : ∀ k, 0 ≤ rnd k ∧ rnd k < 1)
    (st : Array ℚ × ℕ) (i : ℕ)
    (hst : ∀ x ∈ st.1.toList, -125 ≤ x ∧ x ≤ 125) :
    (particlesBody rnd st i).1.size = st.1.size ∧
    ∀ x ∈ (particlesBody rnd st i).1.toList, -125 ≤ x ∧ x ≤ 125 := by
  have hv : ∀ k, -125 ≤ (rnd k - 1 / 2) * 250 ∧ (rnd k - 1 / 2) * 250 ≤ 125 := by
    intro k
    obtain ⟨h0, h1⟩ := h k
    constructor <;> linarith
  refine ⟨by simp [particlesBody], ?_⟩
  intro x hx
  simp only [particlesBody] at hx
  rcases mem_setD _ _ _ _ hx with hx | rfl
  · rcases mem_setD _ _ _ _ hx with hx | rfl
    · rcases mem_setD _ _ _ _ hx with hx | rfl
      · exact hst x hx
      · exact hv _
    · exact hv _
  · exact hv _

theorem particles_foldl_inv (rnd : ℕ → ℚ) (h : ∀ k, 0 ≤ rnd k ∧ rnd k < 1) (is : List ℕ) :
    ∀ st : Array ℚ × ℕ, (∀ x ∈ st.1.toList, -125 ≤ x ∧ x ≤ 125) →
      (is.foldl (particlesBody rnd) st).1.size = st.1.size ∧
      ∀ x ∈ (is.foldl (particlesBody rnd) st).1.toList, -125 ≤ x ∧ x ≤ 125 := by
  induction is with
  | nil => intro st hst; exact ⟨rfl, hst⟩
  | cons i is ih =>
    intro st hst
    obtain ⟨hsz, hrange⟩ := particlesBody_inv rnd h st i hst
    obtain ⟨hsz2, hrange2⟩ := ih (particlesBody rnd st i) hrange
    exact ⟨by rw [List.foldl_cons, hsz2, hsz], hrange2⟩

/-- C9: for every count `N` and every supply of random numbers in `[0, 1)`,
the array built by the generator has exactly `3 * N` entries and every
entry lies in `[-125, 125]`. -/
theorem C9_particles_size_range (rnd : ℕ → ℚ) (N : ℕ) (h : ∀ k, 0 ≤ rnd k ∧ rnd k < 1) :
    (particles rnd N).size = 3 * N ∧
    ∀ x ∈ (particles rnd N).toList, -125 ≤ x ∧ x ≤ 125 := by
  have h0 : ∀ x ∈ (mkArray (N * 3) (0 : ℚ)).toList, -125 ≤ x ∧ x ≤ 125 := by
    intro x hx
    simp only [Array.toList_mkArray] at hx
    rw [List.eq_of_mem_replicate hx]
    norm_num
  obtain ⟨hsz, hrange⟩ := particles_foldl_inv rnd h (List.range N) (mkArray (N * 3) 0, 0) h0
  refine ⟨?_, hrange⟩
  unfold particles
  rw [hsz]
  simp [Nat.mul_comm]

theorem C9_particles_size_range_witness :
    (particles (fun k => (k % 4 : ℕ) / 4) 2).size = 3 * 2 ∧
    ∀ x ∈ (particles (fun k => (k % 4 : ℕ) / 4) 2).toList, -125 ≤ x ∧ x ≤ 125 :=
  C9_particles_size_range (fun k => (k % 4 : ℕ) / 4) 2 (by
    intro k
    have hk : k % 4 < 4 := Nat.mod_lt k (by norm_num)
    have hk2 : ((k % 4 : ℕ) : ℚ) < 4 := by exact_mod_cast hk
    constructor
    · positivity
    · rw [div_lt_one (by norm_num)]; exact hk2)

/-! ## C10: the outcomes of a form submission -/

theorem getProp_of_ne_null (e : Json) (key : String) (h : e ≠ Json.null) :
    getProp e key = .ok (e.prop key) := by
  cases e <;> first | exact absurd rfl h | rfl

/-- Mapping `e => e.message` over an array with no `null` entry gives the
`message` property of each entry. -/
theorem messagesOf_ok (items : List Json) (h : Json.null ∉ items) :
    messagesOf items = .ok (items.map (fun e => e.prop "message")) := by
  induction items with
  | nil => rfl
  | cons e rest ih =>
    have he : e ≠ Json.null := fun hn => h (hn ▸ List.mem_cons_self _ _)
    have hrest : Json.null ∉ rest := fun hn => h (List.mem_cons_of_mem _ hn)
    simp only [messagesOf, getProp_of_ne_null e _ he, ih hrest, List.map_cons]

/-- Mapping `e => e.message` over an array with a `null` entry throws. -/
theorem messagesOf_error (items : List Json) (h : Json.null ∈ items) :
    ∃ err, messagesOf items = .error err := by
  induction items with
  | nil => exact absurd h (List.not_mem_nil _)
  | cons e rest ih =>
    by_cases he : e = Json.null
    · subst he
      exact ⟨"TypeError", rfl⟩
    · have hrest : Json.null ∈ rest := by
        rcases List.mem_cons.mp h with h1 | h1
        · exact absurd h1.symm he
        · exact h1
      obtain ⟨err, herr⟩ := ih hrest
      refine ⟨err, ?_⟩
      simp only [messagesOf, getProp_of_ne_null e _ he, herr]

/-- On an array of `{message}` objects with string messages the mapped and
joined texts are the messages themselves, and no entry is `null`. -/
theorem messageStrings_spec (items : List Json) :
    ∀ msgs, messageStrings items = some msgs →
      Json.null ∉ items ∧
      items.map (fun e => joinText (e.prop "message")) = msgs := by
  induction items with
  | nil =>
    intro msgs h
    simp only [messageStrings, Option.some.injEq] at h
    subst h
    exact ⟨List.not_mem_nil _, rfl⟩
  | cons e rest ih =>
    intro msgs h
    simp only [messageStrings] at h
    split at h
    · rename_i m ms hm hms
      simp only [Option.some.injEq] at h
      subst h
      obtain ⟨hnull, hmap⟩ := ih ms hms
      refine ⟨?_, ?_⟩
      · intro hmem
        rcases List.mem_cons.mp hmem with h1 | h1
        · rw [← h1] at hm
          simp [Json.prop] at hm
        · exact hnull h1
      · rw [List.map_cons, hmap, hm]
        rfl
    · exact absurd h (by simp)

/-- The handler on a non-success response whose parsed body is an object
with a truthy `errors` that is an array. -/
theorem handleFormSubmit_errors_array (data : Json) (items : List Json)
    (h : data.prop "errors" = some (Json.arr items)) :
    (Json.null ∉ items →
      handleFormSubmit (FetchResult.response false (JsonResult.parsed data)) =
        { formStatus := "❌ " ++
            ", ".intercalate (items.map (fun e => joinText (e.prop "message"))),
          formReset := false }) ∧
    (Json.null ∈ items →
      handleFormSubmit (FetchResult.response false (JsonResult.parsed data)) =
        { formStatus := networkErrorStatus, formReset := false }) := by
  have hd : data ≠ Json.null := by
    intro hn; rw [hn] at h; simp [Json.prop] at h
  constructor
  · intro hn
    simp only [handleFormSubmit, tryBlock, getProp_of_ne_null data _ hd, h, truthy, mapMessage,
      messagesOf_ok items hn, if_true, List.map_map]
    rfl
  · intro hn
    obtain ⟨err, herr⟩ := messagesOf_error items hn
    simp only [handleFormSubmit, tryBlock, getProp_of_ne_null data _ hd, h, truthy, mapMessage,
      herr, if_true]

/-- The handler on a non-success response whose parsed body is not `null`
and whose `errors` is truthy but not an array. -/
theorem handleFormSubmit_errors_other (data v : Json)
    (h : data.prop "errors" = some v) (ht : truthy (some v) = true)
    (hv : ∀ items, v ≠ Json.arr items) :
    handleFormSubmit (FetchResult.response false (JsonResult.parsed data)) =
      { formStatus := networkErrorStatus, formReset := false } := by
  have hd : data ≠ Json.null := by
    intro hn; rw [hn] at h; simp [Json.prop] at h
  have hm : ∃ err, mapMessage (some v) = .error err := by
    cases v with
    | arr items => exact absurd rfl (hv items)
    | null => exact ⟨_, rfl⟩
    | bool b => exact ⟨_, rfl⟩
    | num z t => exact ⟨_, rfl⟩
    | str t => exact ⟨_, rfl⟩
    | obj ms => exact ⟨_, rfl⟩
  obtain ⟨err, herr⟩ := hm
  simp only [handleFormSubmit, tryBlock, getProp_of_ne_null data _ hd, h, ht, herr, if_true]

/-- The handler on a non-success response whose parsed body is not `null`
and whose `errors` is missing or falsy. -/
theorem handleFormSubmit_errors_falsy (data : Json) (hd : data ≠ Json.null)
    (ht : truthy (data.prop "errors") = false) :
    handleFormSubmit (FetchResult.response false (JsonResult.parsed data)) =
      { formStatus := problemStatus, formReset := false } := by
  simp [handleFormSubmit, tryBlock, getProp_of_ne_null data _ hd, ht]

/-- Where the body carries a structured error list, the handler shows its
messages joined with `", "`. -/
theorem handleFormSubmit_errorList (data : Json) (msgs : List String)
    (h : errorList data = some msgs) :
    handleFormSubmit (FetchResult.response false (JsonResult.parsed data)) =
      { formStatus := "❌ " ++ ", ".intercalate msgs, formReset := false } := by
  unfold errorList at h
  split at h
  · rename_i items hitems
    obtain ⟨hnull, hmap⟩ := messageStrings_spec items msgs h
    rw [(handleFormSubmit_errors_array data items hitems).1 hnull, hmap]
  · exact absurd h (by simp)

/-- The outcomes of a non-success response with a parsed body, by the shape
of the body. -/
theorem handleFormSubmit_parsed (data : Json) :
    ((data = Json.null ∨
        ∃ v, data.prop "errors" = some v ∧ truthy (some v) = true ∧
          ((∀ items, v ≠ Json.arr items) ∨ ∃ items, v = Json.arr items ∧ Json.null ∈ items)) ∧
      handleFormSubmit (FetchResult.response false (JsonResult.parsed data)) =
        { formStatus := networkErrorStatus, formReset := false }) ∨
    (∃ items, data.prop "errors" = some (Json.arr items) ∧ Json.null ∉ items ∧
      handleFormSubmit (FetchResult.response false (JsonResult.parsed data)) =
        { formStatus := "❌ " ++
            ", ".intercalate (items.map (fun e => joinText (e.prop "message"))),
          formReset := false }) ∨
    (data ≠ Json.null ∧ truthy (data.prop "errors") = false ∧
      handleFormSubmit (FetchResult.response false (JsonResult.parsed data)) =
        { formStatus := problemStatus, formReset := false }) := by
  by_cases hd : data = Json.null
  · left
    subst hd
    exact ⟨Or.inl rfl, rfl⟩
  · by_cases ht : truthy (data.prop "errors") = true
    · cases hv : data.prop "errors" with
      | none => rw [hv] at ht; exact absurd ht (by simp [truthy])
      | some v =>
        rw [hv] at ht
        by_cases harr : ∃ items, v = Json.arr items
        · obtain ⟨items, rfl⟩ := harr
          by_cases hn : Json.null ∈ items
          · left
            exact ⟨Or.inr ⟨_, rfl, ht, Or.inr ⟨items, rfl, hn⟩⟩,
              (handleFormSubmit_errors_array data items hv).2 hn⟩
          · right; left
            exact ⟨items, rfl, hn, (handleFormSubmit_errors_array data items hv).1 hn⟩
        · left
          have hv2 : ∀ items, v ≠ Json.arr items := fun items h => harr ⟨items, h⟩
          exact ⟨Or.inr ⟨v, rfl, ht, Or.inl hv2⟩,
            handleFormSubmit_errors_other data v hv ht hv2⟩
    · right; right
      have htf : truthy (data.prop "errors") = false := by
        cases h : truthy (data.prop "errors") with
        | true => exact absurd h ht
        | false => rfl
      exact ⟨hd, htf, handleFormSubmit_errors_falsy data hd htf⟩

/-- C10, as stated, fails: a non-success response whose body is the empty
object (no `errors` field) ends with the status `problemStatus`, which is
neither the network-error message nor the confirmation, and the response has
no error list to show; so the submission ends outside the three outcomes. -/
theorem C10_fourth_outcome :
    handleFormSubmit (FetchResult.response false (JsonResult.parsed (Json.obj []))) =
      { formStatus := "❌ Oops! There was a problem submitting your form.",
        formReset := false } ∧
    (handleFormSubmit (FetchResult.response false
      (JsonResult.parsed (Json.obj [])))).formStatus ≠ networkErrorStatus ∧
    (handleFormSubmit (FetchResult.response false
      (JsonResult.parsed (Json.obj [])))).formStatus ≠ successStatus ∧
    ¬ ThreeOutcomes (FetchResult.response false (JsonResult.parsed (Json.obj [])))
      (handleFormSubmit (FetchResult.response false (JsonResult.parsed (Json.obj [])))) := by
  refine ⟨rfl, by decide, by decide, ?_⟩
  simp [ThreeOutcomes, errorList, Json.prop, lookupMember]

/-- C10, amended: every submission ends in exactly one of four outcomes,
decided by the result of the request.
* The network-error message: the request is rejected; or the response is a
  non-success one and its body is not JSON, or parses to `null`, or has an
  `errors` value that is truthy but not an array, or has an `errors` array
  with a `null` entry.
* The error list: the response is a non-success one and its body has an
  `errors` array with no `null` entry; the status is the cross mark followed
  by the `message` of each entry (as `join` renders it) joined with `", "`.
* The generic problem message: the response is a non-success one and its
  body parses to a value other than `null` whose `errors` is missing or
  falsy.
* The confirmation, with the form reset: the response is a success.
The form is reset in the last case only, and the outcome is one of the
three of the specification exactly when the request is rejected, succeeds,
or fails with a structured error list. -/
theorem C10_four_outcomes (r : FetchResult) :
    (((r = FetchResult.rejected ∨ r = FetchResult.response false JsonResult.throws ∨
          ∃ data, r = FetchResult.response false (JsonResult.parsed data) ∧
            (data = Json.null ∨
              ∃ v, data.prop "errors" = some v ∧ truthy (some v) = true ∧
                ((∀ items, v ≠ Json.arr items) ∨
                  ∃ items, v = Json.arr items ∧ Json.null ∈ items))) ∧
        handleFormSubmit r = { formStatus := networkErrorStatus, formReset := false }) ∨
      (∃ data items, r = FetchResult.response false (JsonResult.parsed data) ∧
        data.prop "errors" = some (Json.arr items) ∧ Json.null ∉ items ∧
        handleFormSubmit r =
          { formStatus := "❌ " ++
              ", ".intercalate (items.map (fun e => joinText (e.prop "message"))),
            formReset := false }) ∨
      (∃ data, r = FetchResult.response false (JsonResult.parsed data) ∧
        data ≠ Json.null ∧ truthy (data.prop "errors") = false ∧
        handleFormSubmit r = { formStatus := problemStatus, formReset := false }) ∨
      (∃ json, r = FetchResult.response true json ∧
        handleFormSubmit r = { formStatus := successStatus, formReset := true })) ∧
    ((handleFormSubmit r).formReset = true ↔ ∃ json, r = FetchResult.response true json) ∧
    (ThreeOutcomes r (handleFormSubmit r) ↔
      (r = FetchResult.rejected ∨ (∃ json, r = FetchResult.response true json) ∨
        ∃ data msgs, r = FetchResult.response false (JsonResult.parsed data) ∧
          errorList data = some msgs)) := by
  cases r with
  | rejected =>
    refine ⟨Or.inl ⟨Or.inl rfl, rfl⟩, ?_, ?_⟩
    · simp [handleFormSubmit, tryBlock]
    · simp [handleFormSubmit, tryBlock, ThreeOutcomes]
  | response ok json =>
    cases ok with
    | true =>
      refine ⟨Or.inr (Or.inr (Or.inr ⟨json, rfl, rfl⟩)), ?_, ?_⟩
      · simp [handleFormSubmit, tryBlock]
      · simp [handleFormSubmit, tryBlock, ThreeOutcomes]
    | false =>
      cases json with
      | throws =>
        refine ⟨Or.inl ⟨Or.inr (Or.inl rfl), rfl⟩, ?_, ?_⟩
        · simp [handleFormSubmit, tryBlock]
        · simp [handleFormSubmit, tryBlock, ThreeOutcomes]
      | parsed data =>
        refine ⟨?_, ?_, ?_⟩
        · rcases handleFormSubmit_parsed data with ⟨hc, ho⟩ | ⟨items, h1, h2, ho⟩ | ⟨h1, h2, ho⟩
          · exact Or.inl ⟨Or.inr (Or.inr ⟨data, rfl, hc⟩), ho⟩
          · exact Or.inr (Or.inl ⟨data, items, rfl, h1, h2, ho⟩)
          · exact Or.inr (Or.inr (Or.inl ⟨data, rfl, h1, h2, ho⟩))
        · rcases handleFormSubmit_parsed data with ⟨_, ho⟩ | ⟨items, _, _, ho⟩ | ⟨_, _, ho⟩ <;>
            simp [ho]
        · cases hl : errorList data with
          | none => simp [ThreeOutcomes, hl]
          | some msgs =>
            simp [ThreeOutcomes, hl, handleFormSubmit_errorList data msgs hl]

/-! ## C11: every jump finishes -/

/-- Rising makes progress: after `n` frames of deltas at least `eps`, either
`clicked` has been cleared at some frame up to `n`, or the object is still
rising, has gained at least `4 * eps * n` and is not above the apex
threshold. -/
theorem afterClick_rise_progress (props : Props) (hovered showName : Bool) (eps : ℚ)
    (δ : ℕ → ℚ) (hδ : ∀ n, eps ≤ δ n) (n : ℕ) :
    (∃ j ≤ n, ∃ y sc, afterClick props (InteractiveObject.atRest props hovered showName) δ j =
        ⟨hovered, false, !showName, some ⟨y, sc⟩⟩) ∨
    (∃ y sc, afterClick props (InteractiveObject.atRest props hovered showName) δ n =
        ⟨hovered, true, !showName, some ⟨y, sc⟩⟩ ∧
      props.position1 + 4 * eps * n ≤ y ∧ y ≤ props.position1 + 1) := by
  induction n with
  | zero =>
    right
    refine ⟨props.position1, 1, rfl, ?_, ?_⟩ <;> simp
  | succ n ih =>
    rcases ih with ⟨j, hj, y, sc, h⟩ | ⟨y, sc, h, hlo, hhi⟩
    · exact Or.inl ⟨j, Nat.le_succ_of_le hj, y, sc, h⟩
    · have hd := hδ n
      by_cases hgt : props.position1 + 1 < y + δ n * 4
      · left
        refine ⟨n + 1, le_rfl, y + δ n * 4, if hovered then 115 / 100 else 1, ?_⟩
        show useFrame props (afterClick props _ δ n) (δ n) = _
        rw [h]
        exact useFrame_rising_above props _ _ _ _ _ _ rfl hgt
      · right
        refine ⟨y + δ n * 4, if hovered then 115 / 100 else 1, ?_, ?_, not_lt.mp hgt⟩
        · show useFrame props (afterClick props _ δ n) (δ n) = _
          rw [h]
          exact useFrame_rising_below props _ _ _ _ _ _ rfl (not_lt.mp hgt)
        · push_cast
          linarith

/-- Falling makes progress: `n` frames after a frame `j` at which `clicked`
is false, either the object has come to or below `props.position[1]` at some
frame up to `j + n`, or it is still above and has lost at least
`3 * eps * n`. -/
theorem afterClick_fall_progress (props : Props) (s : InteractiveObject) (eps : ℚ)
    (δ : ℕ → ℚ) (hδ : ∀ n, eps ≤ δ n) (j : ℕ) (hov sn : Bool) (y sc : ℚ)
    (hj : afterClick props s δ j = ⟨hov, false, sn, some ⟨y, sc⟩⟩) (n : ℕ) :
    (∃ i ≤ n, ∃ y1 sc1, afterClick props s δ (j + i) = ⟨hov, false, sn, some ⟨y1, sc1⟩⟩ ∧
        y1 ≤ props.position1) ∨
    (∃ y1 sc1, afterClick props s δ (j + n) = ⟨hov, false, sn, some ⟨y1, sc1⟩⟩ ∧
        props.position1 < y1 ∧ y1 ≤ y - 3 * eps * n) := by
  induction n with
  | zero =>
    by_cases hy : y ≤ props.position1
    · exact Or.inl ⟨0, le_rfl, y, sc, hj, hy⟩
    · right
      refine ⟨y, sc, hj, not_le.mp hy, ?_⟩
      simp
  | succ n ih =>
    rcases ih with ⟨i, hi, y1, sc1, h, hle⟩ | ⟨y1, sc1, h, hlt, hhi⟩
    · exact Or.inl ⟨i, Nat.le_succ_of_le hi, y1, sc1, h, hle⟩
    · have hd := hδ (j + n)
      have hnext : afterClick props s δ (j + (n + 1)) =
          ⟨hov, false, sn, some ⟨y1 - δ (j + n) * 3, if hov then 115 / 100 else 1⟩⟩ := by
        show useFrame props (afterClick props s δ (j + n)) (δ (j + n)) = _
        rw [h]
        exact useFrame_falling props _ _ _ _ _ _ rfl hlt
      by_cases hy : y1 - δ (j + n) * 3 ≤ props.position1
      · exact Or.inl ⟨n + 1, le_rfl, _, _, hnext, hy⟩
      · right
        refine ⟨_, _, hnext, not_le.mp hy, ?_⟩
        push_cast
        linarith

/-- Once the object is not rising and is at or below `props.position[1]`,
frames leave `clicked` and the height as they are. -/
theorem afterClick_stays (props : Props) (s : InteractiveObject) (δ : ℕ → ℚ) (N : ℕ)
    (hov sn : Bool) (y sc : ℚ)
    (hN : afterClick props s δ N = ⟨hov, false, sn, some ⟨y, sc⟩⟩)
    (hy : y ≤ props.position1) (m : ℕ) :
    ∃ sc1, afterClick props s δ (N + m) = ⟨hov, false, sn, some ⟨y, sc1⟩⟩ := by
  induction m with
  | zero => exact ⟨sc, hN⟩
  | succ m ih =>
    obtain ⟨sc1, h⟩ := ih
    refine ⟨if hov then 115 / 100 else 1, ?_⟩
    show useFrame props (afterClick props s δ (N + m)) (δ (N + m)) = _
    rw [h, useFrame_idle]
    simp [not_lt.mpr hy]

/-- C11: for every base height, every `eps > 0` and every stream of frame
deltas each at least `eps`, an object clicked once at rest reaches, after
some finite number `N` of frames, a state with `clicked = false` and
`position.y = y <= props.position[1]`; and after every later number of
frames (with no new click) `clicked` is still false and `position.y` is
still `y`. -/
theorem C11_jump_finishes (props : Props) (hovered showName : Bool) (eps : ℚ)
    (heps : 0 < eps) (δ : ℕ → ℚ) (hδ : ∀ n, eps ≤ δ n) :
    ∃ N y,
      (afterClick props (InteractiveObject.atRest props hovered showName) δ N).clicked
        = false ∧
      positionY (afterClick props (InteractiveObject.atRest props hovered showName) δ N)
        = some y ∧
      y ≤ props.position1 ∧
      ∀ m, N ≤ m →
        (afterClick props (InteractiveObject.atRest props hovered showName) δ m).clicked
          = false ∧
        positionY (afterClick props (InteractiveObject.atRest props hovered showName) δ m)
          = some y := by
  -- the rise ends
  obtain ⟨n1, hn1⟩ := exists_nat_gt (1 / (4 * eps))
  have h4 : 0 < 4 * eps := by linarith
  have hn1b : 1 < 4 * eps * n1 := by
    rw [div_lt_iff₀ h4] at hn1
    linarith
  have hrise : ∃ j y sc, afterClick props (InteractiveObject.atRest props hovered showName) δ j
      = ⟨hovered, false, !showName, some ⟨y, sc⟩⟩ := by
    rcases afterClick_rise_progress props hovered showName eps δ hδ n1 with
      ⟨j, _, y, sc, h⟩ | ⟨y, sc, _, hlo, hhi⟩
    · exact ⟨j, y, sc, h⟩
    · exfalso; linarith
  obtain ⟨j, y0, sc0, hj⟩ := hrise
  -- the fall ends
  obtain ⟨n2, hn2⟩ := exists_nat_gt ((y0 - props.position1) / (3 * eps))
  have h3 : 0 < 3 * eps := by linarith
  have hn2b : y0 - props.position1 < 3 * eps * n2 := by
    rw [div_lt_iff₀ h3] at hn2
    linarith
  have hfall : ∃ N y sc, afterClick props (InteractiveObject.atRest props hovered showName) δ N
      = ⟨hovered, false, !showName, some ⟨y, sc⟩⟩ ∧ y ≤ props.position1 := by
    rcases afterClick_fall_progress props _ eps δ hδ j hovered (!showName) y0 sc0 hj n2 with
      ⟨i, _, y1, sc1, h, hle⟩ | ⟨y1, sc1, _, hlt, hhi⟩
    · exact ⟨j + i, y1, sc1, h, hle⟩
    · exfalso; linarith
  obtain ⟨N, y, sc, hN, hy⟩ := hfall
  refine ⟨N, y, by rw [hN], by rw [hN]; rfl, hy, ?_⟩
  intro m hm
  obtain ⟨k, rfl⟩ := Nat.exists_eq_add_of_le hm
  obtain ⟨sc1, h⟩ := afterClick_stays props _ δ N hovered (!showName) y sc hN hy k
  rw [h]
  exact ⟨rfl, rfl⟩

theorem C11_jump_finishes_witness :
    ∃ N y,
      (afterClick { position := (7, 3, -8) }
        (InteractiveObject.atRest { position := (7, 3, -8) } false false)
        (fun n => 1 / 60 + (n % 3 : ℕ) / 100) N).clicked = false ∧
      positionY (afterClick { position := (7, 3, -8) }
        (InteractiveObject.atRest { position := (7, 3, -8) } false false)
        (fun n => 1 / 60 + (n % 3 : ℕ) / 100) N) = some y ∧
      y ≤ (3 : ℚ) ∧
      ∀ m, N ≤ m →
        (afterClick { position := (7, 3, -8) }
          (InteractiveObject.atRest { position := (7, 3, -8) } false false)
          (fun n => 1 / 60 + (n % 3 : ℕ) / 100) m).clicked = false ∧
        positionY (afterClick { position := (7, 3, -8) }
          (InteractiveObject.atRest { position := (7, 3, -8) } false false)
          (fun n => 1 / 60 + (n % 3 : ℕ) / 100) m) = some y :=
  C11_jump_finishes { position := (7, 3, -8) } false false (1 / 60) (by norm_num)
    (fun n => 1 / 60 + (n % 3 : ℕ) / 100) (by
      intro n
      have h : (0 : ℚ) ≤ ((n % 3 : ℕ) : ℚ) / 100 := by positivity
      linarith)

end Portfolio
